import Mathlib

/-!
Shallow embedding of the conversation subsystem of the Lost & Found
application: the `Chat` mongoose schema (its embedded `Message`
subdocuments, instance methods `addMessage`, `markMessagesAsRead`,
`editMessage`, `deleteMessage`, `closeChat`, `getUnreadCount`, statics
`findUserChats`, `findByPostAndUsers`, and the `pre('save')` hook) together
with the socket handlers `send_message` and `create_chat` from the backend
server.  ObjectIds are modelled as `Nat`, timestamps as milliseconds
(`Nat`), nullable fields as `Option`, thrown errors as `Except String`.
-/

namespace LostFound

/-- Milliseconds in seven days: the inactivity window used for `autoCloseAt`. -/
def sevenDays : Nat := 7 * 24 * 60 * 60 * 1000

/-- The `attachment` subdocument of a message (all fields default to null). -/
structure Attachment where
  url : Option String
  publicId : Option String
  filename : Option String
  size : Option Nat
deriving DecidableEq, Repr

/-- A message subdocument (`messageSchema`).  `id` is the subdocument `_id`
used by `this.messages.id(messageId)`. -/
structure Message where
  id : Nat
  sender : Nat
  content : String
  messageType : String
  attachment : Option Attachment
  isRead : Bool
  readAt : Option Nat
  isEdited : Bool
  editedAt : Option Nat
  originalContent : Option String
  isDeleted : Bool
  deletedAt : Option Nat
deriving DecidableEq, Repr

/-- A participant entry of a chat. -/
structure Participant where
  user : Nat
  joinedAt : Nat
  lastSeen : Nat
  isActive : Bool
deriving DecidableEq, Repr

/-- The denormalized `lastMessage` snapshot stored on a chat. -/
structure LastMessage where
  content : Option String
  sender : Option Nat
  timestamp : Option Nat
  messageType : String
deriving DecidableEq, Repr

/-- A chat document (`chatSchema`), restricted to the fields the verified
methods read or write. -/
structure Chat where
  id : Nat
  participants : List Participant
  post : Nat
  messages : List Message
  lastMessage : LastMessage
  status : String
  isResolved : Bool
  resolvedAt : Option Nat
  resolvedBy : Option Nat
  lastActivity : Nat
  autoCloseAt : Nat
deriving DecidableEq, Repr

/-- `this.messages.id(messageId)`: first message with the given `_id`. -/
def findMessage (c : Chat) (messageId : Nat) : Option Message :=
  c.messages.find? fun m => m.id == messageId

/-- Mutating the subdocument returned by a `find` / `.id(...)` lookup updates
the first matching element of the array in place. -/
def updateFirst {α : Type} (p : α → Bool) (f : α → α) : List α → List α
  | [] => []
  | a :: rest => if p a then f a :: rest else a :: updateFirst p f rest

/-- The `chatSchema.pre('save')` middleware: when the `messages` path was
modified since load, refresh `lastActivity`.  Every schema method ends in
`this.save()`, so each modelled method applies this hook to its result. -/
def applySaveHook (old c : Chat) (now : Nat) : Chat :=
  if c.messages = old.messages then c else { c with lastActivity := now }

/-- The fresh message record built by `addMessage` (schema defaults fill the
remaining fields). -/
def freshMessage (newMsgId senderId : Nat) (content messageType : String)
    (attachment : Option Attachment) : Message :=
  { id := newMsgId, sender := senderId, content := content,
    messageType := messageType, attachment := attachment, isRead := false,
    readAt := none, isEdited := false, editedAt := none,
    originalContent := none, isDeleted := false, deletedAt := none }

/-- `chatSchema.methods.addMessage`: push the message, overwrite the
`lastMessage` snapshot, set `lastActivity = now` and
`autoCloseAt = now + 7 days`, then save. -/
def addMessage (c : Chat) (newMsgId senderId : Nat) (content messageType : String)
    (attachment : Option Attachment) (now : Nat) : Chat :=
  let c1 : Chat :=
    { c with
      messages := c.messages ++ [freshMessage newMsgId senderId content messageType attachment],
      lastMessage :=
        { content := some content, sender := some senderId,
          timestamp := some now, messageType := messageType },
      lastActivity := now,
      autoCloseAt := now + sevenDays }
  applySaveHook c c1 now

/-- One iteration of the `messageIds.forEach` loop of `markMessagesAsRead`:
look the id up in the current array and, when found and not authored by the
reader, mark it read (unconditionally re-stamping `readAt`). -/
def markOne (userId now : Nat) (msgs : List Message) (mid : Nat) : List Message :=
  match msgs.find? (fun m => m.id == mid) with
  | some m =>
    if m.sender != userId then
      updateFirst (fun m2 => m2.id == mid)
        (fun m2 => { m2 with isRead := true, readAt := some now }) msgs
    else msgs
  | none => msgs

/-- `chatSchema.methods.markMessagesAsRead`.  With `messageIds = none`
(JS `null`) every unread message not authored by the reader is marked read;
with a list only the listed ids are touched.  The reader's participant entry
gets `lastSeen = now`, then the document is saved. -/
def markMessagesAsRead (c : Chat) (userId : Nat) (messageIds : Option (List Nat))
    (now : Nat) : Chat :=
  let msgs :=
    match messageIds with
    | some ids => ids.foldl (markOne userId now) c.messages
    | none =>
      c.messages.map fun m =>
        if !m.isRead && m.sender != userId then
          { m with isRead := true, readAt := some now }
        else m
  let parts := updateFirst (fun p => p.user == userId)
    (fun p => { p with lastSeen := now }) c.participants
  applySaveHook c { c with messages := msgs, participants := parts } now

/-- `chatSchema.methods.editMessage`: not-found, authorization and tombstone
checks, preservation of `originalContent` on first edit only, then save. -/
def editMessage (c : Chat) (messageId : Nat) (newContent : String) (userId now : Nat) :
    Except String Chat :=
  match findMessage c messageId with
  | none => .error "Message not found"
  | some message =>
    if message.sender != userId then .error "Not authorized to edit this message"
    else if message.isDeleted then .error "Cannot edit deleted message"
    else
      let withOriginal :=
        if !message.isEdited then { message with originalContent := some message.content }
        else message
      let updated :=
        { withOriginal with content := newContent, isEdited := true, editedAt := some now }
      let c1 :=
        { c with messages := updateFirst (fun m => m.id == messageId) (fun _ => updated) c.messages }
      .ok (applySaveHook c c1 now)

/-- The tombstone content substituted for a deleted message. -/
def tombstone : String := "This message has been deleted"

/-- `chatSchema.methods.deleteMessage`: not-found and authorization checks,
then unconditionally tombstone (no already-deleted check) and save. -/
def deleteMessage (c : Chat) (messageId userId now : Nat) : Except String Chat :=
  match findMessage c messageId with
  | none => .error "Message not found"
  | some message =>
    if message.sender != userId then .error "Not authorized to delete this message"
    else
      let updated :=
        { message with isDeleted := true, deletedAt := some now, content := tombstone }
      let c1 :=
        { c with messages := updateFirst (fun m => m.id == messageId) (fun _ => updated) c.messages }
      .ok (applySaveHook c c1 now)

/-- `chatSchema.methods.closeChat`: unconditionally set status/resolution
fields (`resolvedBy` only when a `closedBy` argument is passed) and save. -/
def closeChat (c : Chat) (closedBy : Option Nat) (now : Nat) : Chat :=
  let c1 := { c with status := "closed", isResolved := true, resolvedAt := some now }
  let c2 :=
    match closedBy with
    | some u => { c1 with resolvedBy := some u }
    | none => c1
  applySaveHook c c2 now

/-- `chatSchema.methods.getUnreadCount`: non-deleted, unread messages not
authored by the given user. -/
def getUnreadCount (c : Chat) (userId : Nat) : Nat :=
  (c.messages.filter fun m => !m.isRead && m.sender != userId && !m.isDeleted).length

/-- The MongoDB filter of `chatSchema.statics.findUserChats`:
`{'participants.user': userId, 'participants.isActive': true, status}`.
Each condition on the `participants` array is matched independently
(no `$elemMatch`), exactly as MongoDB evaluates it. -/
def matchesUserChatsQuery (userId : Nat) (status : String) (c : Chat) : Bool :=
  c.participants.any (fun p => p.user == userId) &&
  c.participants.any (fun p => p.isActive) &&
  c.status == status

/-- Descending comparison on nullable `lastMessage.timestamp` values:
in a descending MongoDB sort null orders below every date (hence last). -/
def tsLeB : Option Nat → Option Nat → Bool
  | none, _ => true
  | some _, none => false
  | some a, some b => a ≤ b

/-- `a` may appear before `b` in the `.sort({'lastMessage.timestamp': -1})`
order: `b`'s timestamp is at most `a`'s. -/
def chatBefore (a b : Chat) : Prop :=
  tsLeB b.lastMessage.timestamp a.lastMessage.timestamp = true

instance : DecidableRel chatBefore := fun a b =>
  inferInstanceAs (Decidable (tsLeB b.lastMessage.timestamp a.lastMessage.timestamp = true))

/-- `chatSchema.statics.findUserChats` over a modelled collection:
filter by the query, sort by `lastMessage.timestamp` descending. -/
def findUserChats (chats : List Chat) (userId : Nat) (status : String) : List Chat :=
  List.insertionSort chatBefore (chats.filter (matchesUserChatsQuery userId status))

/-- The MongoDB filter of `chatSchema.statics.findByPostAndUsers`:
`{post, 'participants.user': {$all: userIds}, status: {$ne: 'archived'}}`. -/
def matchesPostAndUsers (postId : Nat) (userIds : List Nat) (c : Chat) : Bool :=
  c.post == postId &&
  userIds.all (fun u => c.participants.any fun p => p.user == u) &&
  c.status != "archived"

/-- `chatSchema.statics.findByPostAndUsers` (`findOne`: first match). -/
def findByPostAndUsers (chats : List Chat) (postId : Nat) (userIds : List Nat) :
    Option Chat :=
  chats.find? (matchesPostAndUsers postId userIds)

/-- The `send_message` socket handler, after the chat has been resolved:
active-participant check, then `addMessage`.  No status check is performed. -/
def sendMessage (c : Chat) (senderId : Nat) (content messageType : String)
    (attachment : Option Attachment) (newMsgId now : Nat) : Except String Chat :=
  if c.participants.any (fun p => p.user == senderId && p.isActive) then
    .ok (addMessage c newMsgId senderId content messageType attachment now)
  else
    .error "Not authorized to send messages in this chat"

/-- A participant entry as built by the `create_chat` handler (schema
defaults: `joinedAt`/`lastSeen` now, `isActive` true). -/
def mkParticipant (u now : Nat) : Participant :=
  { user := u, joinedAt := now, lastSeen := now, isActive := true }

/-- A brand-new chat document as built by the `create_chat` handler, with
schema defaults for the unset fields. -/
def newChat (chatId postId selfId participantId now : Nat) : Chat :=
  { id := chatId,
    participants := [mkParticipant selfId now, mkParticipant participantId now],
    post := postId,
    messages := [],
    lastMessage := { content := none, sender := none, timestamp := none, messageType := "text" },
    status := "active",
    isResolved := false,
    resolvedAt := none,
    resolvedBy := none,
    lastActivity := now,
    autoCloseAt := now + sevenDays }

/-- The chat document stored by the `create_chat` handler when no existing
chat is found: the fresh chat, with the optional initial message appended. -/
def createdChat (chatId selfId postId participantId : Nat)
    (initialMessage : Option String) (msgId now : Nat) : Chat :=
  match initialMessage with
  | some text =>
    addMessage (newChat chatId postId selfId participantId now) msgId selfId text "text" none now
  | none => newChat chatId postId selfId participantId now

/-- The `create_chat` socket handler over a modelled collection: look up an
existing chat for the post and the two users; if found return it unchanged,
else insert a new chat (appending the optional initial message). -/
def createChat (chats : List Chat) (chatId selfId postId participantId : Nat)
    (initialMessage : Option String) (msgId now : Nat) : Chat × List Chat :=
  match findByPostAndUsers chats postId [selfId, participantId] with
  | some existing => (existing, chats)
  | none =>
    let c1 := createdChat chatId selfId postId participantId initialMessage msgId now
    (c1, chats ++ [c1])

/-- The state observed after the `edit_message` handler: on success the saved
chat, on a thrown error the stored chat is untouched. -/
def editApplied (c : Chat) (messageId : Nat) (newContent : String) (userId now : Nat) : Chat :=
  match editMessage c messageId newContent userId now with
  | .ok c1 => c1
  | .error _ => c

/-- The state observed after the `delete_message` handler: on success the
saved chat, on a thrown error the stored chat is untouched. -/
def deleteApplied (c : Chat) (messageId userId now : Nat) : Chat :=
  match deleteMessage c messageId userId now with
  | .ok c1 => c1
  | .error _ => c

/-- The state observed after the `send_message` handler. -/
def sendApplied (c : Chat) (senderId : Nat) (content messageType : String)
    (attachment : Option Attachment) (newMsgId now : Nat) : Chat :=
  match sendMessage c senderId content messageType attachment newMsgId now with
  | .ok c1 => c1
  | .error _ => c

/-- Whether a modelled operation succeeded (no error was thrown). -/
def exceptOk (e : Except String Chat) : Bool :=
  match e with
  | .ok _ => true
  | .error _ => false

/-- Spec-side predicate (refinement comparison for `findForPrincipal`): the
spec's words require the principal to be an **active** participant, i.e. the
principal's own entry has the active flag true. -/
def specIsActiveParticipant (c : Chat) (userId : Nat) : Bool :=
  c.participants.any fun p => p.user == userId && p.isActive

/-! Concrete sample documents used by counterexamples and witnesses. -/

/-- An active chat between users 7 and 8 holding one plain message (id 1)
sent by user 7. -/
def chatActive : Chat :=
  { id := 2,
    participants := [mkParticipant 7 0, mkParticipant 8 0],
    post := 42,
    messages := [freshMessage 1 7 "hello" "text" none],
    lastMessage :=
      { content := some "hello", sender := some 7, timestamp := some 5, messageType := "text" },
    status := "active",
    isResolved := false, resolvedAt := none, resolvedBy := none,
    lastActivity := 5, autoCloseAt := 100 }

/-- The same conversation but with status `closed`. -/
def chatClosed : Chat := { chatActive with id := 1, status := "closed" }

/-- The same conversation but with status `archived`. -/
def chatArchived : Chat := { chatActive with id := 4, status := "archived" }

/-- A chat where user 1's participant entry is inactive while user 2's is
active. -/
def chatMixed : Chat :=
  { id := 3,
    participants :=
      [{ user := 1, joinedAt := 0, lastSeen := 0, isActive := false }, mkParticipant 2 0],
    post := 9,
    messages := [],
    lastMessage := { content := none, sender := none, timestamp := some 4, messageType := "text" },
    status := "active",
    isResolved := false, resolvedAt := none, resolvedBy := none,
    lastActivity := 0, autoCloseAt := 100 }

/-! Helper lemmas shared across claims. -/

theorem applySaveHook_messages (old c : Chat) (now : Nat) :
    (applySaveHook old c now).messages = c.messages := by
  unfold applySaveHook
  split <;> rfl

theorem find?_updateFirst {α : Type} {p : α → Bool} {f : α → α} {l : List α} {a : α}
    (h : l.find? p = some a) (hf : p (f a) = true) :
    (updateFirst p f l).find? p = some (f a) := by
  induction l with
  | nil => simp at h
  | cons x rest ih =>
    cases hx : p x with
    | true =>
      rw [List.find?_cons_of_pos _ hx] at h
      injection h with h
      subst h
      simp [updateFirst, hx, List.find?_cons_of_pos _ hf]
    | false =>
      have hne : ¬ p x = true := by simp [hx]
      rw [List.find?_cons_of_neg _ hne] at h
      rw [updateFirst]
      simp only [hx, if_false, Bool.false_eq_true]
      rw [List.find?_cons_of_neg _ hne]
      exact ih h

theorem tsLeB_total (x y : Option Nat) : tsLeB x y = true ∨ tsLeB y x = true := by
  cases x <;> cases y <;> (simp [tsLeB]; try omega)

theorem tsLeB_trans {x y z : Option Nat} (h1 : tsLeB x y = true) (h2 : tsLeB y z = true) :
    tsLeB x z = true := by
  cases x <;> cases y <;> cases z <;> (simp [tsLeB] at *; try omega)

instance : IsTotal Chat chatBefore :=
  ⟨fun a b => tsLeB_total b.lastMessage.timestamp a.lastMessage.timestamp⟩

instance : IsTrans Chat chatBefore :=
  ⟨fun _ _ _ hab hbc => tsLeB_trans hbc hab⟩

/-! Claim theorems. -/

/-- C1 counterexample: on the concrete closed conversation `chatClosed`, a
send by active participant 7 does not fail at all — it succeeds and changes
`lastActivity`, the `lastMessage` snapshot and `autoCloseAt`, refuting the
claim that it fails with `ConversationNotActive` leaving them unchanged. -/
theorem c1_counterexample :
    chatClosed.status = "closed" ∧
    exceptOk (sendMessage chatClosed 7 "hi" "text" none 2 50) = true ∧
    (sendApplied chatClosed 7 "hi" "text" none 2 50).lastActivity ≠ chatClosed.lastActivity ∧
    (sendApplied chatClosed 7 "hi" "text" none 2 50).autoCloseAt ≠ chatClosed.autoCloseAt ∧
    (sendApplied chatClosed 7 "hi" "text" none 2 50).lastMessage ≠ chatClosed.lastMessage := by
  decide

/-- C1 (amended): neither `addMessage` nor the `send_message` handler checks
the conversation status: for every conversation whose status is not
`active`, a send by an active participant succeeds and appends the message,
sets `lastActivity = now`, advances `autoCloseAt = now + 7 days`, and
overwrites the `lastMessage` snapshot — exactly as on an active
conversation. -/
theorem c1_send_ignores_status (c : Chat) (senderId newMsgId now : Nat)
    (content messageType : String) (attachment : Option Attachment)
    (_hst : c.status ≠ "active")
    (hp : c.participants.any (fun p => p.user == senderId && p.isActive) = true) :
    sendMessage c senderId content messageType attachment newMsgId now =
      .ok (addMessage c newMsgId senderId content messageType attachment now) ∧
    (addMessage c newMsgId senderId content messageType attachment now).messages =
      c.messages ++ [freshMessage newMsgId senderId content messageType attachment] ∧
    (addMessage c newMsgId senderId content messageType attachment now).lastActivity = now ∧
    (addMessage c newMsgId senderId content messageType attachment now).autoCloseAt =
      now + sevenDays ∧
    (addMessage c newMsgId senderId content messageType attachment now).lastMessage =
      { content := some content, sender := some senderId, timestamp := some now,
        messageType := messageType } := by
  refine ⟨by simp [sendMessage, hp], ?_, ?_, ?_, ?_⟩ <;>
    simp [addMessage, applySaveHook]

/-- C1 witness: the amended statement instantiated on the closed sample
conversation. -/
theorem c1_send_ignores_status_witness :
    sendMessage chatClosed 7 "hi" "text" none 2 50 =
      .ok (addMessage chatClosed 2 7 "hi" "text" none 50) ∧
    (addMessage chatClosed 2 7 "hi" "text" none 50).messages =
      chatClosed.messages ++ [freshMessage 2 7 "hi" "text" none] ∧
    (addMessage chatClosed 2 7 "hi" "text" none 50).lastActivity = 50 ∧
    (addMessage chatClosed 2 7 "hi" "text" none 50).autoCloseAt = 50 + sevenDays ∧
    (addMessage chatClosed 2 7 "hi" "text" none 50).lastMessage =
      { content := some "hi", sender := some 7, timestamp := some 50, messageType := "text" } :=
  c1_send_ignores_status chatClosed 7 2 50 "hi" "text" none (by decide) (by decide)

/-- C2 counterexample: deleting message 1 of `chatActive` at time 10 and
again at time 20 re-stamps `deletedAt` from 10 to 20, so the second delete
does not yield the same final state as the first even though it reports
success. -/
theorem c2_counterexample :
    exceptOk (deleteMessage (deleteApplied chatActive 1 7 10) 1 7 20) = true ∧
    (findMessage (deleteApplied chatActive 1 7 10) 1).map Message.deletedAt =
      some (some 10) ∧
    (findMessage (deleteApplied (deleteApplied chatActive 1 7 10) 1 7 20) 1).map
      Message.deletedAt = some (some 20) ∧
    deleteApplied (deleteApplied chatActive 1 7 10) 1 7 20 ≠
      deleteApplied chatActive 1 7 10 := by
  decide

/-- C2 (amended): deleting an already-deleted message by its sender still
reports success and leaves `content` at the tombstone string and `isDeleted`
true, but `deletedAt` is overwritten with the time of the second call rather
than staying at the first deletion's timestamp. -/
theorem c2_redelete_restamps (c : Chat) (mid u now : Nat) (m : Message)
    (hfind : findMessage c mid = some m) (hs : m.sender = u)
    (_hdel : m.isDeleted = true) :
    exceptOk (deleteMessage c mid u now) = true ∧
    findMessage (deleteApplied c mid u now) mid =
      some { m with isDeleted := true, deletedAt := some now, content := tombstone } := by
  have hfind' : c.messages.find? (fun m2 => m2.id == mid) = some m := hfind
  have hid : (m.id == mid) = true := by simpa using List.find?_some hfind'
  have hdel' : deleteMessage c mid u now =
      .ok (applySaveHook c
        { c with messages := (updateFirst (fun m2 => m2.id == mid)
            (fun _ => { m with isDeleted := true, deletedAt := some now, content := tombstone })
            c.messages) } now) := by
    unfold deleteMessage
    rw [show findMessage c mid = some m from hfind]
    simp [hs]
  refine ⟨by simp [hdel', exceptOk], ?_⟩
  unfold deleteApplied
  rw [hdel']
  unfold findMessage
  rw [applySaveHook_messages]
  exact find?_updateFirst hfind hid

/-- C2 witness: the amended statement instantiated on the sample chat whose
message 1 was first deleted at time 10, re-deleted at time 20. -/
theorem c2_redelete_restamps_witness :
    exceptOk (deleteMessage (deleteApplied chatActive 1 7 10) 1 7 20) = true ∧
    findMessage (deleteApplied (deleteApplied chatActive 1 7 10) 1 7 20) 1 =
      some { freshMessage 1 7 "hello" "text" none with
        isDeleted := true, deletedAt := some 20, content := tombstone } :=
  c2_redelete_restamps (deleteApplied chatActive 1 7 10) 1 7 20
    { freshMessage 1 7 "hello" "text" none with
      isDeleted := true, deletedAt := some 10, content := tombstone }
    (by decide) (by decide) (by decide)

/-- C3 counterexample: closing `chatActive` at time 10 and again at time 20
overwrites `resolvedAt` (10 becomes 20), so the second close is not a
field-level no-op. -/
theorem c3_counterexample :
    (closeChat chatActive none 10).resolvedAt = some 10 ∧
    (closeChat (closeChat chatActive none 10) none 20).resolvedAt = some 20 ∧
    closeChat (closeChat chatActive none 10) none 20 ≠ closeChat chatActive none 10 := by
  decide

/-- C3 (amended): `closeChat` sets status `closed`, `isResolved` true and
`resolvedAt = now`, touches no other chat field, and raises no error on an
already-closed chat — but it is not a no-op: a second close keeps status and
`isResolved` unchanged while overwriting `resolvedAt` with the second call's
time, and overwrites `resolvedBy` whenever a `closedBy` value is passed. -/
theorem c3_close_overwrites_resolution (c : Chat) (cb1 cb2 : Option Nat) (t1 t2 : Nat) :
    (closeChat c cb1 t1).status = "closed" ∧
    (closeChat c cb1 t1).isResolved = true ∧
    (closeChat c cb1 t1).resolvedAt = some t1 ∧
    (closeChat c cb1 t1).resolvedBy =
      (match cb1 with | some v => some v | none => c.resolvedBy) ∧
    (closeChat c cb1 t1).messages = c.messages ∧
    (closeChat c cb1 t1).participants = c.participants ∧
    (closeChat c cb1 t1).lastActivity = c.lastActivity ∧
    (closeChat c cb1 t1).autoCloseAt = c.autoCloseAt ∧
    (closeChat c cb1 t1).lastMessage = c.lastMessage ∧
    (closeChat (closeChat c cb1 t1) cb2 t2).status = (closeChat c cb1 t1).status ∧
    (closeChat (closeChat c cb1 t1) cb2 t2).isResolved = (closeChat c cb1 t1).isResolved ∧
    (closeChat (closeChat c cb1 t1) cb2 t2).resolvedAt = some t2 := by
  cases cb1 <;> cases cb2 <;> simp [closeChat, applySaveHook]

/-- C6 counterexample: user 1's own participant entry in `chatMixed` is
inactive, yet `findUserChats` still returns the chat for user 1 because the
query's two array conditions are satisfied by different entries; the spec's
active-participant predicate rejects it. -/
theorem c6_counterexample :
    findUserChats [chatMixed] 1 "active" = [chatMixed] ∧
    specIsActiveParticipant chatMixed 1 = false := by
  decide

/-- C6 (amended): `findUserChats` returns, up to permutation, exactly the
chats of the requested status in which the principal appears as a
participant (active or not) and at least one participant — not necessarily
the principal — has the active flag true; the result is ordered by
`lastMessage.timestamp` descending. -/
theorem c6_query_semantics (chats : List Chat) (userId : Nat) (status : String) :
    List.Perm (findUserChats chats userId status)
      (chats.filter (matchesUserChatsQuery userId status)) ∧
    List.Sorted chatBefore (findUserChats chats userId status) :=
  ⟨List.perm_insertionSort _ _, List.sorted_insertionSort _ _⟩

/-- Success path of `editMessage` in normal form: when the message exists,
the requester is its sender and it is not deleted, the edit saves the chat
with the first matching message rewritten (`originalContent` preserved from
the pre-edit content on a first edit only). -/
theorem editMessage_ok (c : Chat) (mid : Nat) (t : String) (u now : Nat) (m : Message)
    (hfind : findMessage c mid = some m) (hs : m.sender = u) (hd : m.isDeleted = false) :
    editMessage c mid t u now =
      .ok (applySaveHook c
        { c with messages := (updateFirst (fun m2 => m2.id == mid)
            (fun _ => { m with
              originalContent := if !m.isEdited then some m.content else m.originalContent,
              content := t, isEdited := true, editedAt := some now }) c.messages) } now) := by
  unfold editMessage
  rw [show findMessage c mid = some m from hfind]
  cases hE : m.isEdited <;> simp [hs, hd, hE]

/-- The message looked up after a successful edit, in normal form. -/
theorem findMessage_editApplied (c : Chat) (mid : Nat) (t : String) (u now : Nat)
    (m : Message) (hfind : findMessage c mid = some m) (hs : m.sender = u)
    (hd : m.isDeleted = false) :
    findMessage (editApplied c mid t u now) mid =
      some { m with
        originalContent := if !m.isEdited then some m.content else m.originalContent,
        content := t, isEdited := true, editedAt := some now } := by
  have hfind' : c.messages.find? (fun m2 => m2.id == mid) = some m := hfind
  have hid : (m.id == mid) = true := by simpa using List.find?_some hfind'
  unfold editApplied
  rw [editMessage_ok c mid t u now m hfind hs hd]
  unfold findMessage
  rw [applySaveHook_messages]
  exact find?_updateFirst hfind' (by simpa using hid)

/-- C4: a first edit by the original sender succeeds, preserves the pre-edit
content in `originalContent`, replaces `content`, and sets `isEdited` and
`editedAt`; a second edit succeeds, again replaces `content` and re-stamps
`editedAt`, while `originalContent` still holds the original pre-edit
content. -/
theorem c4_edit_preserves_original (c : Chat) (mid u n1 n2 : Nat) (t1 t2 : String)
    (m : Message) (hfind : findMessage c mid = some m) (hs : m.sender = u)
    (hd : m.isDeleted = false) (he : m.isEdited = false) :
    exceptOk (editMessage c mid t1 u n1) = true ∧
    findMessage (editApplied c mid t1 u n1) mid =
      some { m with originalContent := some m.content, content := t1,
                    isEdited := true, editedAt := some n1 } ∧
    exceptOk (editMessage (editApplied c mid t1 u n1) mid t2 u n2) = true ∧
    findMessage (editApplied (editApplied c mid t1 u n1) mid t2 u n2) mid =
      some { m with originalContent := some m.content, content := t2,
                    isEdited := true, editedAt := some n2 } := by
  have h1ok : exceptOk (editMessage c mid t1 u n1) = true := by
    rw [editMessage_ok c mid t1 u n1 m hfind hs hd]; rfl
  have h1 := findMessage_editApplied c mid t1 u n1 m hfind hs hd
  rw [he] at h1
  simp only [Bool.not_false, if_true] at h1
  have h2ok : exceptOk (editMessage (editApplied c mid t1 u n1) mid t2 u n2) = true := by
    rw [editMessage_ok (editApplied c mid t1 u n1) mid t2 u n2 _ h1 hs hd]; rfl
  have h2 := findMessage_editApplied (editApplied c mid t1 u n1) mid t2 u n2 _ h1 hs hd
  simp only [Bool.not_true, if_false, Bool.false_eq_true] at h2
  exact ⟨h1ok, h1, h2ok, h2⟩

/-- C4 witness: the two-edit scenario on the concrete active chat, message 1
edited by its sender 7 at times 50 and 60. -/
theorem c4_edit_preserves_original_witness :
    exceptOk (editMessage chatActive 1 "first" 7 50) = true ∧
    findMessage (editApplied chatActive 1 "first" 7 50) 1 =
      some { freshMessage 1 7 "hello" "text" none with
        originalContent := some "hello", content := "first",
        isEdited := true, editedAt := some 50 } ∧
    exceptOk (editMessage (editApplied chatActive 1 "first" 7 50) 1 "second" 7 60) = true ∧
    findMessage (editApplied (editApplied chatActive 1 "first" 7 50) 1 "second" 7 60) 1 =
      some { freshMessage 1 7 "hello" "text" none with
        originalContent := some "hello", content := "second",
        isEdited := true, editedAt := some 60 } :=
  c4_edit_preserves_original chatActive 1 7 50 60 "first" "second"
    (freshMessage 1 7 "hello" "text" none) (by decide) (by decide) (by decide) (by decide)

/-- C5: `editMessage` fails with the not-found error when no message has the
requested id, with the authorization error when the requester is not the
message's sender, and with the tombstone error when the message is deleted;
in each failure case the stored chat — hence the message's content,
`isEdited`, `editedAt` and `originalContent` — is left unchanged. -/
theorem c5_edit_failures (c : Chat) (mid u now : Nat) (t : String) :
    (findMessage c mid = none →
      editMessage c mid t u now = .error "Message not found" ∧
      editApplied c mid t u now = c) ∧
    (∀ m, findMessage c mid = some m → m.sender ≠ u →
      editMessage c mid t u now = .error "Not authorized to edit this message" ∧
      editApplied c mid t u now = c) ∧
    (∀ m, findMessage c mid = some m → m.sender = u → m.isDeleted = true →
      editMessage c mid t u now = .error "Cannot edit deleted message" ∧
      editApplied c mid t u now = c) := by
  refine ⟨fun h => ?_, fun m h hs => ?_, fun m h hs hd => ?_⟩
  · constructor
    · unfold editMessage
      rw [h]
    · unfold editApplied editMessage
      rw [h]
  · have hs' : (m.sender != u) = true := by simpa using hs
    constructor
    · unfold editMessage
      rw [h]
      simp [hs']
    · unfold editApplied editMessage
      rw [h]
      simp [hs']
  · have hs' : (m.sender != u) = false := by simp [hs]
    constructor
    · unfold editMessage
      rw [h]
      simp [hs', hd]
    · unfold editApplied editMessage
      rw [h]
      simp [hs', hd]

/-- C5 witness: the three failure modes exercised concretely — a missing
message id, an edit by the non-sender 8, and an edit of the tombstoned
message 1. -/
theorem c5_edit_failures_witness :
    (editMessage chatActive 99 "x" 7 50 = .error "Message not found" ∧
      editApplied chatActive 99 "x" 7 50 = chatActive) ∧
    (editMessage chatActive 1 "x" 8 50 = .error "Not authorized to edit this message" ∧
      editApplied chatActive 1 "x" 8 50 = chatActive) ∧
    (editMessage (deleteApplied chatActive 1 7 10) 1 "x" 7 50 =
        .error "Cannot edit deleted message" ∧
      editApplied (deleteApplied chatActive 1 7 10) 1 "x" 7 50 =
        deleteApplied chatActive 1 7 10) :=
  ⟨(c5_edit_failures chatActive 99 7 50 "x").1 (by decide),
   (c5_edit_failures chatActive 1 8 50 "x").2.1
     (freshMessage 1 7 "hello" "text" none) (by decide) (by decide),
   (c5_edit_failures (deleteApplied chatActive 1 7 10) 1 7 50 "x").2.2
     { freshMessage 1 7 "hello" "text" none with
       isDeleted := true, deletedAt := some 10, content := tombstone }
     (by decide) (by decide) (by decide)⟩

theorem find?_append_of_none {α : Type} {p : α → Bool} {l1 : List α} (l2 : List α)
    (h : l1.find? p = none) : (l1 ++ l2).find? p = l2.find? p := by
  induction l1 with
  | nil => simp
  | cons a rest ih =>
    cases ha : p a with
    | true =>
      rw [List.find?_cons_of_pos _ ha] at h
      exact absurd h (by simp)
    | false =>
      have hne : ¬ p a = true := by simp [ha]
      rw [List.find?_cons_of_neg _ hne] at h
      rw [List.cons_append, List.find?_cons_of_neg _ hne]
      exact ih h

theorem find?_congr {α : Type} {p q : α → Bool} (h : ∀ a, p a = q a) :
    ∀ l : List α, l.find? p = l.find? q := by
  intro l
  induction l with
  | nil => rfl
  | cons a rest ih =>
    cases ha : q a with
    | true =>
      rw [List.find?_cons_of_pos _ (by rw [h a]; exact ha), List.find?_cons_of_pos _ ha]
    | false =>
      rw [List.find?_cons_of_neg _ (by simp [h a, ha]),
        List.find?_cons_of_neg _ (by simp [ha])]
      exact ih

/-- The `$all` condition of `findByPostAndUsers` is order-insensitive in the
two user ids. -/
theorem matchesPostAndUsers_swap (postId a b : Nat) (c : Chat) :
    matchesPostAndUsers postId [a, b] c = matchesPostAndUsers postId [b, a] c := by
  simp [matchesPostAndUsers, Bool.and_comm, Bool.and_left_comm, Bool.and_assoc]

/-- `addMessage` leaves the post reference, the participant list and the
status untouched. -/
theorem addMessage_frame (c : Chat) (mid sid : Nat) (content mt : String)
    (att : Option Attachment) (now : Nat) :
    (addMessage c mid sid content mt att now).post = c.post ∧
    (addMessage c mid sid content mt att now).participants = c.participants ∧
    (addMessage c mid sid content mt att now).status = c.status := by
  refine ⟨?_, ?_, ?_⟩ <;> simp [addMessage, applySaveHook]

/-- The chat stored by `create_chat` matches its own lookup query. -/
theorem createdChat_matches (chatId selfId postId participantId : Nat)
    (im : Option String) (msgId now : Nat) :
    matchesPostAndUsers postId [selfId, participantId]
      (createdChat chatId selfId postId participantId im msgId now) = true := by
  cases im with
  | none => simp [createdChat, newChat, matchesPostAndUsers, mkParticipant]
  | some text =>
    have hf := addMessage_frame (newChat chatId postId selfId participantId now)
      msgId selfId text "text" none now
    unfold createdChat
    simp only [matchesPostAndUsers, hf.1, hf.2.1, hf.2.2]
    simp [newChat, mkParticipant]

/-- C7: `create_chat` is idempotent.  For any stored collection, running the
handler once and then again for the same post and the same unordered pair
of principals — in the same order or swapped — returns the very same chat
and leaves the collection unchanged (no duplicate conversation). -/
theorem c7_create_chat_idempotent (chats : List Chat)
    (id1 id2 id3 selfId postId participantId : Nat)
    (im1 im2 im3 : Option String) (mid1 mid2 mid3 t1 t2 t3 : Nat) :
    createChat (createChat chats id1 selfId postId participantId im1 mid1 t1).2
        id2 selfId postId participantId im2 mid2 t2 =
      createChat chats id1 selfId postId participantId im1 mid1 t1 ∧
    createChat (createChat chats id1 selfId postId participantId im1 mid1 t1).2
        id3 participantId postId selfId im3 mid3 t3 =
      createChat chats id1 selfId postId participantId im1 mid1 t1 := by
  have hswap : ∀ cc : Chat, matchesPostAndUsers postId [participantId, selfId] cc =
      matchesPostAndUsers postId [selfId, participantId] cc :=
    fun cc => (matchesPostAndUsers_swap postId selfId participantId cc).symm
  cases hfind : findByPostAndUsers chats postId [selfId, participantId] with
  | some e =>
    have h1 : createChat chats id1 selfId postId participantId im1 mid1 t1 = (e, chats) := by
      unfold createChat
      rw [hfind]
    rw [h1]
    have hfind' : findByPostAndUsers chats postId [participantId, selfId] = some e := by
      unfold findByPostAndUsers at hfind ⊢
      rw [find?_congr hswap chats]
      exact hfind
    constructor
    · show createChat chats id2 selfId postId participantId im2 mid2 t2 = (e, chats)
      unfold createChat
      rw [hfind]
    · show createChat chats id3 participantId postId selfId im3 mid3 t3 = (e, chats)
      unfold createChat
      rw [hfind']
  | none =>
    have h1 : createChat chats id1 selfId postId participantId im1 mid1 t1 =
        (createdChat id1 selfId postId participantId im1 mid1 t1,
         chats ++ [createdChat id1 selfId postId participantId im1 mid1 t1]) := by
      unfold createChat
      rw [hfind]
    have hnone : chats.find? (matchesPostAndUsers postId [selfId, participantId]) = none :=
      hfind
    have hmatch := createdChat_matches id1 selfId postId participantId im1 mid1 t1
    have hfind2 : findByPostAndUsers
        (chats ++ [createdChat id1 selfId postId participantId im1 mid1 t1])
        postId [selfId, participantId] =
        some (createdChat id1 selfId postId participantId im1 mid1 t1) := by
      unfold findByPostAndUsers
      rw [find?_append_of_none _ hnone]
      exact List.find?_cons_of_pos _ hmatch
    have hfind3 : findByPostAndUsers
        (chats ++ [createdChat id1 selfId postId participantId im1 mid1 t1])
        postId [participantId, selfId] =
        some (createdChat id1 selfId postId participantId im1 mid1 t1) := by
      unfold findByPostAndUsers
      rw [find?_congr hswap]
      rw [find?_append_of_none _ hnone]
      exact List.find?_cons_of_pos _ hmatch
    rw [h1]
    constructor
    · show createChat
          (chats ++ [createdChat id1 selfId postId participantId im1 mid1 t1])
          id2 selfId postId participantId im2 mid2 t2 = _
      unfold createChat
      rw [hfind2]
    · show createChat
          (chats ++ [createdChat id1 selfId postId participantId im1 mid1 t1])
          id3 participantId postId selfId im3 mid3 t3 = _
      unfold createChat
      rw [hfind3]

/-- A message as rewritten by the mark-all branch of `markMessagesAsRead`
never satisfies the unread filter afterwards. -/
theorem marked_not_counted (u now : Nat) (m : Message) :
    (!(if !m.isRead && m.sender != u
        then { m with isRead := true, readAt := some now } else m).isRead &&
      ((if !m.isRead && m.sender != u
        then { m with isRead := true, readAt := some now } else m).sender != u) &&
      !(if !m.isRead && m.sender != u
        then { m with isRead := true, readAt := some now } else m).isDeleted) = false := by
  by_cases h : (!m.isRead && m.sender != u) = true
  · rw [if_pos h]
    rfl
  · rw [if_neg h]
    have hx : (!m.isRead && m.sender != u) = false := Bool.eq_false_iff.mpr h
    rw [show (!m.isRead && m.sender != u && !m.isDeleted) =
        ((!m.isRead && m.sender != u) && !m.isDeleted) from rfl, hx]
    rfl

/-- Marking every unread foreign message read leaves no message unread for
that reader. -/
theorem mark_all_clears_unread (l : List Message) (u now : Nat) :
    (l.map fun m =>
        if !m.isRead && m.sender != u then { m with isRead := true, readAt := some now }
        else m).filter
      (fun m => !m.isRead && m.sender != u && !m.isDeleted) = [] := by
  rw [List.filter_eq_nil_iff]
  intro a ha
  rw [List.mem_map] at ha
  obtain ⟨m, _, rfl⟩ := ha
  intro hcontra
  simp only [marked_not_counted u now m, Bool.false_eq_true] at hcontra

/-- C8: `getUnreadCount` counts exactly the non-deleted, unread messages not
authored by the reader; it is unaffected by dropping the reader's own
messages (it never counts them); after `markMessagesAsRead` with no id list
it equals zero, which is a strict decrease whenever it was positive. -/
theorem c8_unread_count (c : Chat) (u now : Nat) :
    getUnreadCount c u =
      (c.messages.filter fun m => !m.isRead && m.sender != u && !m.isDeleted).length ∧
    getUnreadCount { c with messages := c.messages.filter fun m => m.sender != u } u =
      getUnreadCount c u ∧
    getUnreadCount (markMessagesAsRead c u none now) u = 0 ∧
    (0 < getUnreadCount c u →
      getUnreadCount (markMessagesAsRead c u none now) u < getUnreadCount c u) := by
  have hall : getUnreadCount (markMessagesAsRead c u none now) u = 0 := by
    unfold getUnreadCount
    have hmsgs : (markMessagesAsRead c u none now).messages =
        c.messages.map fun m =>
          if !m.isRead && m.sender != u then { m with isRead := true, readAt := some now }
          else m := by
      unfold markMessagesAsRead
      rw [applySaveHook_messages]
    rw [hmsgs, mark_all_clears_unread]
    rfl
  refine ⟨rfl, ?_, hall, fun hpos => by rw [hall]; exact hpos⟩
  unfold getUnreadCount
  rw [List.filter_filter]
  congr 1
  apply List.filter_congr
  intro m _
  show ((!m.isRead && m.sender != u && !m.isDeleted) && (m.sender != u)) =
    (!m.isRead && m.sender != u && !m.isDeleted)
  cases hR : m.isRead <;> cases hS : m.sender != u <;> cases hD : m.isDeleted <;> rfl

/-- C8 witness: reader 8 of the sample active chat has one unread message
from user 7; after `markMessagesAsRead` the count is zero — strictly less
than before. -/
theorem c8_unread_count_witness :
    getUnreadCount chatActive 8 = 1 ∧
    getUnreadCount (markMessagesAsRead chatActive 8 none 50) 8 = 0 ∧
    getUnreadCount (markMessagesAsRead chatActive 8 none 50) 8 < getUnreadCount chatActive 8 :=
  ⟨by decide, (c8_unread_count chatActive 8 50).2.2.1,
    (c8_unread_count chatActive 8 50).2.2.2 (by decide)⟩

/-- C9: editing and deleting never consult the conversation status.  On a
closed or archived conversation, the original sender of an existing,
non-deleted message still edits and deletes it successfully, and the only
errors either operation can ever throw are the not-found, not-authorized
and (for edit) deleted-message ones — never a conversation-not-active
error. -/
theorem c9_mutation_ignores_status (c : Chat) (mid u now : Nat) (t : String)
    (_hst : c.status = "closed" ∨ c.status = "archived") :
    (∀ m, findMessage c mid = some m → m.sender = u → m.isDeleted = false →
      exceptOk (editMessage c mid t u now) = true ∧
      exceptOk (deleteMessage c mid u now) = true) ∧
    (∀ e, editMessage c mid t u now = .error e →
      e = "Message not found" ∨ e = "Not authorized to edit this message" ∨
      e = "Cannot edit deleted message") ∧
    (∀ e, deleteMessage c mid u now = .error e →
      e = "Message not found" ∨ e = "Not authorized to delete this message") := by
  refine ⟨fun m h hs hd => ⟨?_, ?_⟩, fun e he => ?_, fun e he => ?_⟩
  · rw [editMessage_ok c mid t u now m h hs hd]
    rfl
  · have hs' : (m.sender != u) = false := by simp [hs]
    unfold exceptOk deleteMessage
    rw [h]
    simp [hs']
  · unfold editMessage at he
    rcases hfm : findMessage c mid with _ | m
    · rw [hfm] at he
      simp only [Except.error.injEq] at he
      exact Or.inl he.symm
    · rw [hfm] at he
      cases hsu : (m.sender != u) with
      | true =>
        simp only [hsu, Bool.true_eq_false, if_true, Except.error.injEq] at he
        exact Or.inr (Or.inl he.symm)
      | false =>
        cases hdel : m.isDeleted with
        | true =>
          simp only [hsu, hdel, Bool.false_eq_true, if_false, if_true,
            Except.error.injEq] at he
          exact Or.inr (Or.inr he.symm)
        | false =>
          simp [hsu, hdel] at he
  · unfold deleteMessage at he
    rcases hfm : findMessage c mid with _ | m
    · rw [hfm] at he
      simp only [Except.error.injEq] at he
      exact Or.inl he.symm
    · rw [hfm] at he
      cases hsu : (m.sender != u) with
      | true =>
        simp only [hsu, Bool.true_eq_false, if_true, Except.error.injEq] at he
        exact Or.inr he.symm
      | false =>
        simp [hsu] at he

/-- C9 witness: user 7 successfully edits and deletes message 1 of the
closed sample conversation. -/
theorem c9_mutation_ignores_status_witness :
    exceptOk (editMessage chatClosed 1 "x" 7 50) = true ∧
    exceptOk (deleteMessage chatClosed 1 7 50) = true :=
  (c9_mutation_ignores_status chatClosed 1 7 50 "x" (Or.inl (by decide))).1
    (freshMessage 1 7 "hello" "text" none) (by decide) (by decide) (by decide)

/-- The save hook keeps `autoCloseAt` and sets `lastActivity` to `now`
exactly when the saved document's messages differ from the loaded ones. -/
theorem hookWrap_fields (c c1 : Chat) (now : Nat)
    (hA : c1.autoCloseAt = c.autoCloseAt) (hL : c1.lastActivity = c.lastActivity) :
    (applySaveHook c c1 now).autoCloseAt = c.autoCloseAt ∧
    (applySaveHook c c1 now).lastActivity =
      (if (applySaveHook c c1 now).messages = c.messages then c.lastActivity else now) := by
  unfold applySaveHook
  by_cases h : c1.messages = c.messages
  · rw [if_pos h]
    simp [h, hA, hL]
  · rw [if_neg h]
    simp [h, hA, hL]

/-- C10: every message-mutating method updates `lastActivity` to the current
time through the pre-save hook exactly when the messages array actually
changed, and none of edit, delete or markRead touches `autoCloseAt`; only
`addMessage` advances `autoCloseAt` (to `now + 7 days`, also setting
`lastActivity = now`). -/
theorem c10_activity_and_deadline (c : Chat) (mid mid2 u now : Nat)
    (t content mt : String) (att : Option Attachment) (ids : Option (List Nat)) :
    (editApplied c mid t u now).autoCloseAt = c.autoCloseAt ∧
    (editApplied c mid t u now).lastActivity =
      (if (editApplied c mid t u now).messages = c.messages then c.lastActivity else now) ∧
    (deleteApplied c mid u now).autoCloseAt = c.autoCloseAt ∧
    (deleteApplied c mid u now).lastActivity =
      (if (deleteApplied c mid u now).messages = c.messages then c.lastActivity else now) ∧
    (markMessagesAsRead c u ids now).autoCloseAt = c.autoCloseAt ∧
    (markMessagesAsRead c u ids now).lastActivity =
      (if (markMessagesAsRead c u ids now).messages = c.messages then c.lastActivity
       else now) ∧
    (addMessage c mid2 u content mt att now).autoCloseAt = now + sevenDays ∧
    (addMessage c mid2 u content mt att now).lastActivity = now := by
  have hedit : (editApplied c mid t u now).autoCloseAt = c.autoCloseAt ∧
      (editApplied c mid t u now).lastActivity =
        (if (editApplied c mid t u now).messages = c.messages then c.lastActivity
         else now) := by
    rcases hfm : findMessage c mid with _ | m
    · have : editApplied c mid t u now = c := by
        unfold editApplied editMessage
        rw [hfm]
      rw [this]
      simp
    · cases hsu : (m.sender != u) with
      | true =>
        have : editApplied c mid t u now = c := by
          unfold editApplied editMessage
          rw [hfm]
          simp [hsu]
        rw [this]
        simp
      | false =>
        have hs : m.sender = u := by simpa using hsu
        cases hdel : m.isDeleted with
        | true =>
          have : editApplied c mid t u now = c := by
            unfold editApplied editMessage
            rw [hfm]
            simp [hsu, hdel]
          rw [this]
          simp
        | false =>
          have heq : editApplied c mid t u now =
              applySaveHook c
                { c with messages := (updateFirst (fun m2 => m2.id == mid)
                    (fun _ => { m with
                      originalContent :=
                        if !m.isEdited then some m.content else m.originalContent,
                      content := t, isEdited := true, editedAt := some now })
                    c.messages) } now := by
            unfold editApplied
            rw [editMessage_ok c mid t u now m hfm hs hdel]
          rw [heq]
          exact hookWrap_fields c _ now rfl rfl
  have hdel2 : (deleteApplied c mid u now).autoCloseAt = c.autoCloseAt ∧
      (deleteApplied c mid u now).lastActivity =
        (if (deleteApplied c mid u now).messages = c.messages then c.lastActivity
         else now) := by
    rcases hfm : findMessage c mid with _ | m
    · have : deleteApplied c mid u now = c := by
        unfold deleteApplied deleteMessage
        rw [hfm]
      rw [this]
      simp
    · cases hsu : (m.sender != u) with
      | true =>
        have : deleteApplied c mid u now = c := by
          unfold deleteApplied deleteMessage
          rw [hfm]
          simp [hsu]
        rw [this]
        simp
      | false =>
        have heq : deleteApplied c mid u now =
            applySaveHook c
              { c with messages := (updateFirst (fun m2 => m2.id == mid)
                  (fun _ => { m with isDeleted := true, deletedAt := some now, content := tombstone })
                  c.messages) } now := by
          unfold deleteApplied deleteMessage
          rw [hfm]
          simp [hsu]
        rw [heq]
        exact hookWrap_fields c _ now rfl rfl
  have hmark : (markMessagesAsRead c u ids now).autoCloseAt = c.autoCloseAt ∧
      (markMessagesAsRead c u ids now).lastActivity =
        (if (markMessagesAsRead c u ids now).messages = c.messages then c.lastActivity
         else now) := by
    unfold markMessagesAsRead
    exact hookWrap_fields c _ now rfl rfl
  have hadd : (addMessage c mid2 u content mt att now).autoCloseAt = now + sevenDays ∧
      (addMessage c mid2 u content mt att now).lastActivity = now := by
    constructor <;> simp [addMessage, applySaveHook]
  exact ⟨hedit.1, hedit.2, hdel2.1, hdel2.2, hmark.1, hmark.2, hadd.1, hadd.2⟩

end LostFound
